import Mathlib

/-!
Shallow embedding of the placement-and-dispatch core of the
`pbs-final-v3` backend (Python), covering:

* `app/services/features.py`   — feature building / congestion
* `app/services/normalization.py` — min-max normalization
* `app/services/scoring.py`    — weighted score, SLA check
* `app/services/routing.py`    — eligibility filter and routing policy
* `app/services/storage.py`    — job table, atomic claim
* `app/routers/jobs.py`        — submit / cancel / complete endpoints
* `app/services/dispatcher.py` — dispatch with forced-failure hint
* `backend/worker.py`          — failure handling, backoff, reroute
* `app/services/attempts.py`   — attempt rows

Python floats are modelled as `Rat`; ISO-8601 timestamps (which the code
compares lexicographically, equivalent to chronologically for its fixed
format) are modelled as `Nat`.  The learned latency/cost predictors are an
external capability (model files loaded from disk); the embedding is
parameterized by a `Predictors` structure, and the analytic fallback
formulas of `latency_ml.py` / `cost_ml.py` are embedded as one concrete
instance.
-/

namespace PBS

/-- Job lifecycle status (the `status` column of the `jobs` table). -/
inductive Status where
  | QUEUED
  | RUNNING
  | COMPLETED
  | FAILED
  | BLOCKED
  | CANCELLED
deriving DecidableEq, Repr

/-- `schemas.SLA`: optional job-level constraints. -/
structure SLA where
  deadline_ms : Option Rat := none
  max_cost_usd : Option Rat := none
  min_reliability : Option Rat := none
deriving DecidableEq, Repr

/-- The routing/testing hints read out of `JobRequest.hints` (a free-form
dict in Python; the code only ever reads these four keys). -/
structure Hints where
  force_resource_type : Option String := none
  force_resource_id : Option String := none
  exclude_resource_ids : List String := []
  force_fail_first : Bool := false
deriving DecidableEq, Repr

/-- `schemas.JobRequest`. -/
structure JobRequest where
  job_id : String
  job_type : String
  urgency : Rat
  payload_size_mb : Rat
  requires_gpu : Bool
  allow_sla_fallback : Bool
  sla : SLA
  hints : Hints
deriving DecidableEq, Repr

/-- `schemas.TelemetryPoint` (timestamp and `extra` omitted: the embedding
works on the per-resource latest snapshots directly). -/
structure TelemetryPoint where
  resource_id : String
  resource_type : String
  cpu_util : Rat
  mem_util : Rat
  gpu_util : Rat
  net_rtt_ms : Rat
  net_bw_mbps : Rat
  price_per_hour_usd : Rat
  reliability : Rat
  power_w : Rat
deriving DecidableEq, Repr

/-- `features.FeatureVector`. -/
structure FeatureVector where
  congestion : Rat
  cpu_util : Rat
  mem_util : Rat
  gpu_util : Rat
  net_rtt_ms : Rat
  net_bw_mbps : Rat
  price_per_hour_usd : Rat
  reliability : Rat
  power_w : Rat
  urgency : Rat
  payload_size_mb : Rat
  requires_gpu : Bool
deriving DecidableEq, Repr

/-- `features.compute_congestion`. -/
def compute_congestion (t : TelemetryPoint) : Rat :=
  let base := (t.cpu_util + t.mem_util) / 2
  let base := if t.resource_type = "gpu" then (base + t.gpu_util) / 2 else base
  max 0 (min 1 base)

/-- `features.build_features`. -/
def build_features (t : TelemetryPoint) (job : JobRequest) : FeatureVector :=
  { congestion := compute_congestion t
    cpu_util := t.cpu_util
    mem_util := t.mem_util
    gpu_util := t.gpu_util
    net_rtt_ms := t.net_rtt_ms
    net_bw_mbps := t.net_bw_mbps
    price_per_hour_usd := t.price_per_hour_usd
    reliability := t.reliability
    power_w := t.power_w
    urgency := job.urgency
    payload_size_mb := job.payload_size_mb
    requires_gpu := job.requires_gpu }

/-- The `features_dict` assembled in `scoring.score_resource`: the feature
vector plus the categorical columns set by `setdefault`, plus the
`latency_pred_ms` entry injected between the predictor calls. -/
structure FeatureDict where
  fv : FeatureVector
  job_type : String
  resource_type : String
  latency_pred_ms : Option Rat
deriving DecidableEq, Repr

/-- Result shape of `latency_ml.predict_latency`. -/
structure LatencyPred where
  mean_ms : Rat
  p90_ms : Rat
deriving DecidableEq, Repr

/-- Result shape of `cost_ml.predict_cost`. -/
structure CostPred where
  mean_usd : Rat
  p90_usd : Rat
deriving DecidableEq, Repr

/-- The Predictor capability consumed by the scorer.  Which model (if any)
is loaded from disk is environmental, so the embedding is parameterized by
these two total functions, exactly the contract `scoring.py` relies on. -/
structure Predictors where
  predictLatency : FeatureDict → LatencyPred
  predictCost : FeatureDict → CostPred

/-- `latency_ml.predict_latency`, fallback branch (no model file):
RTT + payload factor + congestion factor, p90 = mean * 1.25. -/
def fallbackLatency (fd : FeatureDict) : LatencyPred :=
  let mean := fd.fv.net_rtt_ms + 20 * fd.fv.payload_size_mb / max 1 fd.fv.net_bw_mbps
      + 500 * fd.fv.congestion
  { mean_ms := mean, p90_ms := mean * (125/100) }

/-- `cost_ml._base_cost`. -/
def base_cost (fd : FeatureDict) (latency_ms : Rat) : Rat :=
  let price :=
    if fd.fv.price_per_hour_usd ≤ 0 then
      if fd.resource_type = "edge" then 1/100
      else if fd.resource_type = "cloud" then 8/100
      else 120/100
    else fd.fv.price_per_hour_usd
  let runtime_h := latency_ms / 1000 / 3600
  let egress := if fd.resource_type = "cloud" then (2/100000) * fd.fv.payload_size_mb else 0
  price * runtime_h + egress

/-- `cost_ml.predict_cost`, fallback branch (no model file): base cost
only, p90 = mean * 1.2.  A missing or non-positive `latency_pred_ms`
entry is coalesced to 800. -/
def fallbackCost (fd : FeatureDict) : CostPred :=
  let lat := match fd.latency_pred_ms with
    | some l => if l ≤ 0 then 800 else l
    | none => 800
  let mean := base_cost fd lat
  { mean_usd := mean, p90_usd := mean * (120/100) }

/-- The fallback predictor pair: what the system runs with when no model
file is present on disk. -/
def fallbackPredictors : Predictors :=
  { predictLatency := fallbackLatency, predictCost := fallbackCost }

/-- `normalization.minmax01`. -/
def minmax01 (x min_v max_v : Rat) (invert : Bool) : Rat :=
  if max_v ≤ min_v then 0
  else
    let v := (x - min_v) / (max_v - min_v)
    let v := if v < 0 then 0 else v
    let v := if v > 1 then 1 else v
    if invert then 1 - v else v

/-- The dict returned by `normalization.normalize_scores`. -/
structure NormScores where
  latency : Rat
  cost : Rat
  reliability : Rat
  energy : Rat
  congestion : Rat
deriving DecidableEq, Repr

/-- `normalization.normalize_scores` with the default bounds (the
repository ships no `config.yaml`, so `_bounds` returns
`DEFAULT_BOUNDS`). -/
def normalize_scores (latency_ms cost_usd reliability energy_w congestion : Rat) : NormScores :=
  { latency := minmax01 latency_ms 5 4000 true
    cost := minmax01 cost_usd (1/10000) (2/10) true
    reliability := minmax01 reliability (80/100) (999/1000) false
    energy := minmax01 energy_w 5 400 true
    congestion := minmax01 congestion 0 1 true }

/-- The scoring weights dict. -/
structure Weights where
  latency : Rat
  cost : Rat
  reliability : Rat
  energy : Rat
deriving DecidableEq, Repr

/-- `scoring._weights` with no config override: the defaults
0.45/0.25/0.20/0.10, renormalized by their sum. -/
def weightsDefault : Weights :=
  let s : Rat := 45/100 + 25/100 + 20/100 + 10/100
  { latency := (45/100) / s, cost := (25/100) / s, reliability := (20/100) / s, energy := (10/100) / s }

/-- The deadline violation message of `scoring.sla_check` (an f-string in
the source; number formatting is presentational). -/
def msgDeadline (latency_ms d : Rat) : String :=
  "deadline_ms violated: predicted " ++ toString latency_ms ++ " > " ++ toString d

/-- The cost-cap violation message of `scoring.sla_check`. -/
def msgMaxCost (cost_usd m : Rat) : String :=
  "max_cost_usd violated: predicted " ++ toString cost_usd ++ " > " ++ toString m

/-- The reliability violation message of `scoring.sla_check`. -/
def msgMinReliability (reliability m : Rat) : String :=
  "min_reliability violated: " ++ toString reliability ++ " < " ++ toString m

/-- `scoring.sla_check`: one violation entry per SLA bound exceeded, in
source order (deadline, cost cap, reliability); bounds that are `None`
are skipped. -/
def sla_check (job : JobRequest) (latency_ms cost_usd reliability : Rat) : List String :=
  (match job.sla.deadline_ms with
   | some d => if latency_ms > d then [msgDeadline latency_ms d] else []
   | none => []) ++
  (match job.sla.max_cost_usd with
   | some m => if cost_usd > m then [msgMaxCost cost_usd m] else []
   | none => []) ++
  (match job.sla.min_reliability with
   | some m => if reliability < m then [msgMinReliability reliability m] else []
   | none => [])

/-- `schemas.ScoreBreakdown`. -/
structure ScoreBreakdown where
  latency_pred_ms : Rat
  cost_pred_usd : Rat
  reliability : Rat
  energy_w : Rat
  congestion : Rat
  normalized : NormScores
  weighted_components : Weights
  final_score : Rat
  sla_ok : Bool
  effective_score : Rat
  sla_violations : List String
deriving DecidableEq, Repr

/-- The `features_dict` as first assembled in `score_resource` (feature
vector plus the `setdefault` categorical columns, before any
`latency_pred_ms` injection). -/
def featureDictOf (t : TelemetryPoint) (job : JobRequest) : FeatureDict :=
  { fv := build_features t job
    job_type := job.job_type
    resource_type := t.resource_type
    latency_pred_ms := none }

/-- The latency prediction used by `score_resource`: `predict_latency` is
called once, its mean is injected into the dict as `latency_pred_ms`, and
`predict_latency` is called again on the enriched dict; the second
result is the one used. -/
def latencyOf (P : Predictors) (t : TelemetryPoint) (job : JobRequest) : LatencyPred :=
  let fd0 := featureDictOf t job
  let lat1 := P.predictLatency fd0
  P.predictLatency { fd0 with latency_pred_ms := some lat1.mean_ms }

/-- The cost prediction used by `score_resource`: `predict_cost` on the
dict carrying the final latency mean (the source calls it twice on the
identical dict; both calls return the same value). -/
def costOf (P : Predictors) (t : TelemetryPoint) (job : JobRequest) : CostPred :=
  let fd0 := featureDictOf t job
  P.predictCost { fd0 with latency_pred_ms := some (latencyOf P t job).mean_ms }

/-- The reliability value `score_resource` works with:
`float(t.reliability or 0.98)` — a falsy (zero) reliability is coalesced
to 0.98. -/
def relOf (t : TelemetryPoint) : Rat :=
  if t.reliability = 0 then mkRat 98 100 else t.reliability

/-- The energy value `score_resource` works with: `float(t.power_w or 50.0)`. -/
def energyOf (t : TelemetryPoint) : Rat :=
  if t.power_w = 0 then 50 else t.power_w

/-- `scoring.score_resource`. -/
def score_resource (P : Predictors) (t : TelemetryPoint) (job : JobRequest) : ScoreBreakdown :=
  let w := weightsDefault
  let f := build_features t job
  let lat := latencyOf P t job
  let latency_mean_ms := lat.mean_ms
  let latency_p90_ms := lat.p90_ms
  let cost_pred := costOf P t job
  let cost_mean_usd := cost_pred.mean_usd
  let cost_p90_usd := cost_pred.p90_usd
  let congestion := f.congestion
  let reliability := relOf t
  let energy_w := energyOf t
  let norm := normalize_scores latency_mean_ms cost_mean_usd reliability energy_w congestion
  let wc : Weights :=
    { latency := w.latency * norm.latency
      cost := w.cost * norm.cost
      reliability := w.reliability * norm.reliability
      energy := w.energy * norm.energy }
  let final := wc.latency + wc.cost + wc.reliability + wc.energy
  let violations := sla_check job latency_p90_ms cost_p90_usd reliability
  let ok := violations.length = 0
  let penalty : Rat := mkRat 35 100 * violations.length
  let effective := final - penalty
  { latency_pred_ms := latency_mean_ms
    cost_pred_usd := cost_mean_usd
    reliability := reliability
    energy_w := energy_w
    congestion := congestion
    normalized := norm
    weighted_components := wc
    final_score := final
    sla_ok := ok
    effective_score := effective
    sla_violations := violations }

/-- One entry of a decision's `considered` list. -/
structure ConsideredItem where
  resource_id : String
  resource_type : String
  score : ScoreBreakdown
deriving DecidableEq, Repr

/-- `schemas.RouteDecision`. -/
structure RouteDecision where
  job_id : String
  chosen_resource_id : String
  chosen_resource_type : String
  considered : List ConsideredItem
  explanation : String
deriving DecidableEq, Repr

/-- `routing._eligible`: GPU requirement and the hard 0.85 reliability
floor (`(t.reliability or 0.0) < 0.85` — a falsy reliability coalesces
to 0.0 before the comparison). -/
def eligible (t : TelemetryPoint) (job : JobRequest) : Bool :=
  if job.requires_gpu ∧ t.resource_type ≠ "gpu" then false
  else if (if t.reliability = 0 then (0 : Rat) else t.reliability) < mkRat 85 100 then false
  else true

/-- First hint filter of `routing.route`: drop excluded resource ids
(applied only when the exclusion list is non-empty, like the Python
truthiness check). -/
def excludeFilter (job : JobRequest) (candidates : List TelemetryPoint) : List TelemetryPoint :=
  if job.hints.exclude_resource_ids ≠ [] then
    candidates.filter (fun t => decide (t.resource_id ∉ job.hints.exclude_resource_ids))
  else candidates

/-- Second hint filter of `routing.route`: keep only a forced resource id. -/
def forceIdFilter (job : JobRequest) (cs : List TelemetryPoint) : List TelemetryPoint :=
  match job.hints.force_resource_id with
  | some fid => cs.filter (fun t => decide (t.resource_id = fid))
  | none => cs

/-- Third hint filter of `routing.route`: keep only a forced resource type. -/
def forceTypeFilter (job : JobRequest) (cs : List TelemetryPoint) : List TelemetryPoint :=
  match job.hints.force_resource_type with
  | some ft => cs.filter (fun t => decide (t.resource_type = ft))
  | none => cs

/-- The hint-based candidate filtering at the top of `routing.route`:
exclusion list, then forced id, then forced type, in source order. -/
def hintFilter (job : JobRequest) (candidates : List TelemetryPoint) : List TelemetryPoint :=
  forceTypeFilter job (forceIdFilter job (excludeFilter job candidates))

/-- The scored candidate list built by `route`'s main loop: every
hint-filtered, eligible snapshot, paired with its score breakdown, in
encounter order. -/
def scoredCandidates (P : Predictors) (env : List TelemetryPoint) (job : JobRequest) :
    List (TelemetryPoint × ScoreBreakdown) :=
  ((hintFilter job env).filter (fun t => eligible t job)).map (fun t => (t, score_resource P t job))

/-- `route`'s `ok` list: the scored candidates with `sla_ok`. -/
def okCandidates (P : Predictors) (env : List TelemetryPoint) (job : JobRequest) :
    List (TelemetryPoint × ScoreBreakdown) :=
  (scoredCandidates P env job).filter (fun tb => tb.2.sla_ok)

/-- `route`'s `bad` list: the scored candidates with SLA violations. -/
def badCandidates (P : Predictors) (env : List TelemetryPoint) (job : JobRequest) :
    List (TelemetryPoint × ScoreBreakdown) :=
  (scoredCandidates P env job).filter (fun tb => !tb.2.sla_ok)

/-- Python's `max(xs, key=k)`: the first element attaining the maximal
key (later elements replace the best only on a strictly greater key). -/
def maxByFirst (k : α → Rat) (x : α) (xs : List α) : α :=
  xs.foldl (fun best y => if k best < k y then y else best) x

/-- Stable insertion into a list sorted descending by effective score. -/
def insertByEffectiveDesc (x : ConsideredItem) : List ConsideredItem → List ConsideredItem
  | [] => [x]
  | y :: ys =>
    if y.score.effective_score < x.score.effective_score then x :: y :: ys
    else y :: insertByEffectiveDesc x ys

/-- The `considered_sorted` list of `route`: sorted by `effective_score`
descending with a stable sort (Python's `sorted`). -/
def sortByEffectiveDesc (l : List ConsideredItem) : List ConsideredItem :=
  l.foldr insertByEffectiveDesc []

/-- `routing.route`, parameterized by the predictor capability and by the
latest-snapshot-per-resource list that `list_resources_latest` returns. -/
def route (P : Predictors) (env : List TelemetryPoint) (job : JobRequest) : RouteDecision :=
  let scored := scoredCandidates P env job
  let ok := okCandidates P env job
  let bad := badCandidates P env job
  let considered := scored.map (fun tb => ConsideredItem.mk tb.1.resource_id tb.1.resource_type tb.2)
  let considered_sorted := sortByEffectiveDesc considered
  match ok with
  | tb :: rest =>
    let best := maxByFirst (fun p => p.2.final_score) tb rest
    let rid := best.1.resource_id
    let rtype := best.1.resource_type
    let fs := best.2.final_score
    { job_id := job.job_id
      chosen_resource_id := rid
      chosen_resource_type := rtype
      considered := considered_sorted
      explanation := "[SLA OK] Chose " ++ rid ++ " (" ++ rtype ++ ") score=" ++ toString fs ++ "." }
  | [] =>
    if !job.allow_sla_fallback then
      { job_id := job.job_id
        chosen_resource_id := "none"
        chosen_resource_type := "edge"
        considered := considered_sorted
        explanation := "No SLA-compliant resources found. Dispatch blocked because allow_sla_fallback=false. Relax SLA or enable fallback." }
    else
      match bad with
      | tb :: rest =>
        let best := maxByFirst (fun p => p.2.effective_score) tb rest
        let rid := best.1.resource_id
        let rtype := best.1.resource_type
        let es := best.2.effective_score
        { job_id := job.job_id
          chosen_resource_id := rid
          chosen_resource_type := rtype
          considered := considered_sorted
          explanation := "[SLA FALLBACK] No SLA-compliant resources. Chose best-available " ++ rid ++ " (" ++ rtype ++ ") effective_score=" ++ toString es ++ "." }
      | [] =>
        { job_id := job.job_id
          chosen_resource_id := "none"
          chosen_resource_type := "edge"
          considered := considered_sorted
          explanation := "No eligible resources found (check telemetry + requires_gpu + reliability gates)." }

/-- The stored `job_request_json` column as the consumers see it after
`JobRequest.model_validate_json`: NULL/empty (falsy), text that fails
validation, or a parsed request. -/
inductive StoredRequest where
  | missing
  | unparseable
  | parsed (req : JobRequest)
deriving DecidableEq, Repr

/-- One row of the `jobs` table (`storage.DDL`), with timestamps as `Nat`
and the JSON columns in parsed form. -/
structure JobRow where
  job_id : String
  job_type : String
  urgency : Rat
  payload_size_mb : Rat
  requires_gpu : Bool
  allow_sla_fallback : Bool
  sla_deadline_ms : Option Rat
  sla_max_cost_usd : Option Rat
  sla_min_reliability : Option Rat
  job_request_json : StoredRequest
  status : Status
  attempts : Nat
  max_attempts : Nat
  next_run_at : Option Nat
  chosen_resource_id : String
  chosen_resource_type : String
  worker_id : Option String
  created_at : Nat
  updated_at : Nat
  predicted_latency_ms : Option Rat
  predicted_cost_usd : Option Rat
  final_score : Option Rat
  sla_ok : Bool
  sla_violations_json : List String
  actual_latency_ms : Option Rat
  actual_cost_usd : Option Rat
  output_ref : Option String
  features_json : Option String
deriving DecidableEq, Repr

/-- The jobs table, in row order. -/
abbrev Store := List JobRow

/-- `storage.get_job`: `SELECT * FROM jobs WHERE job_id=?` (first match). -/
def get_job (store : Store) (job_id : String) : Option JobRow :=
  store.find? (fun r => r.job_id = job_id)

/-- Eligibility test of the claim query: `status='QUEUED' AND
(next_run_at IS NULL OR next_run_at <= now)`. -/
def claimEligible (now : Nat) (r : JobRow) : Bool :=
  decide (r.status = Status.QUEUED) &&
    (match r.next_run_at with
     | none => true
     | some t => decide (t ≤ now))

/-- Analogue of `maxByFirst` for the SQL `ORDER BY created_at ASC LIMIT 1`:
first element attaining the minimal key (SQLite leaves the order of
`created_at` ties unspecified; list order is the canonical refinement). -/
def minByFirst (k : α → Nat) (x : α) (xs : List α) : α :=
  xs.foldl (fun best y => if k y < k best then y else best) x

/-- The SELECT of `storage.claim_next_job`: the oldest QUEUED row whose
`next_run_at` is NULL or due. -/
def selectNextQueued (now : Nat) (store : Store) : Option JobRow :=
  match store.filter (claimEligible now) with
  | [] => none
  | r :: rs => some (minByFirst (fun j => j.created_at) r rs)

/-- The row mutation performed by the claim UPDATE: status RUNNING,
worker assigned, attempts incremented, `next_run_at` cleared. -/
def claimUpdateRow (worker_id : String) (now : Nat) (r : JobRow) : JobRow :=
  { r with status := Status.RUNNING
           worker_id := some worker_id
           updated_at := now
           attempts := r.attempts + 1
           next_run_at := none }

/-- The conditional UPDATE of `claim_next_job` (`WHERE job_id=? AND
status='QUEUED'`), returning the updated table and the affected row
count (`res.rowcount`). -/
def condUpdateClaim (worker_id : String) (now : Nat) (jid : String) (store : Store) :
    Store × Nat :=
  (store.map (fun r =>
     if r.job_id = jid ∧ r.status = Status.QUEUED then claimUpdateRow worker_id now r else r),
   (store.filter (fun r => decide (r.job_id = jid ∧ r.status = Status.QUEUED))).length)

/-- `storage.claim_next_job`: one `BEGIN IMMEDIATE` transaction running
the SELECT then the conditional UPDATE; no eligible row, or a rowcount
other than 1, yields `none`.  Like the Python (which returns the
SELECTed `dict(row)`), the returned row is the pre-update row. -/
def claim_next_job (worker_id : String) (now : Nat) (store : Store) :
    Option JobRow × Store :=
  match selectNextQueued now store with
  | none => (none, store)
  | some row =>
    let su := condUpdateClaim worker_id now row.job_id store
    if su.2 ≠ 1 then (none, su.1) else (some row, su.1)

/-- The score breakdown `submit_job` extracts for the chosen resource:
first `considered` item whose id matches the decision. -/
def chosenScore (d : RouteDecision) : Option ScoreBreakdown :=
  (d.considered.find? (fun item => item.resource_id = d.chosen_resource_id)).map (fun i => i.score)

/-- The fresh row built by `routers/jobs.submit_job` (lines 44-72). -/
def buildSubmitRow (decision : RouteDecision) (job : JobRequest) (now : Nat) : JobRow :=
  let cs := chosenScore decision
  { job_id := job.job_id
    job_type := job.job_type
    urgency := job.urgency
    payload_size_mb := job.payload_size_mb
    requires_gpu := job.requires_gpu
    allow_sla_fallback := job.allow_sla_fallback
    sla_deadline_ms := job.sla.deadline_ms
    sla_max_cost_usd := job.sla.max_cost_usd
    sla_min_reliability := job.sla.min_reliability
    job_request_json := StoredRequest.parsed job
    status := if decision.chosen_resource_id = "none" then Status.BLOCKED else Status.QUEUED
    attempts := 0
    max_attempts := 2
    next_run_at := none
    chosen_resource_id := decision.chosen_resource_id
    chosen_resource_type := decision.chosen_resource_type
    worker_id := none
    created_at := now
    updated_at := now
    predicted_latency_ms := cs.map (fun s => s.latency_pred_ms)
    predicted_cost_usd := cs.map (fun s => s.cost_pred_usd)
    final_score := cs.map (fun s => s.final_score)
    sla_ok := match cs with | some s => s.sla_ok | none => false
    sla_violations_json := match cs with | some s => s.sla_violations | none => []
    actual_latency_ms := none
    actual_cost_usd := none
    output_ref := none
    features_json := none }

/-- `storage.upsert_job` applied to `submit_job`'s row dict: `INSERT ...
ON CONFLICT(job_id) DO UPDATE SET` over exactly the dict's columns.  The
dict does not contain `features_json`, so on conflict that column keeps
its old value. -/
def upsert_job (row : JobRow) (store : Store) : Store :=
  if store.any (fun r => r.job_id = row.job_id) then
    store.map (fun r =>
      if r.job_id = row.job_id then { row with features_json := r.features_json } else r)
  else store ++ [row]

/-- `routers/jobs.submit_job`: route, build the row, upsert it. -/
def submit_job (P : Predictors) (env : List TelemetryPoint) (store : Store)
    (job : JobRequest) (now : Nat) : RouteDecision × Store :=
  let decision := route P env job
  (decision, upsert_job (buildSubmitRow decision job now) store)

/-- The HTTP-level rejections of the job endpoints. -/
inductive ApiError where
  | notFound (detail : String)
  | conflict (detail : String)
deriving DecidableEq, Repr

/-- `routers/jobs.cancel_job`: 404 for an unknown id; 409 only for
COMPLETED or FAILED; otherwise `update_job(status='CANCELLED',
worker_id=None)`. -/
def cancel_job (store : Store) (job_id : String) (now : Nat) : Except ApiError Store :=
  match get_job store job_id with
  | none => Except.error (ApiError.notFound "job_id not found")
  | some j =>
    if j.status = Status.COMPLETED ∨ j.status = Status.FAILED then
      Except.error (ApiError.conflict "Cannot cancel job in this status")
    else
      Except.ok (store.map (fun r =>
        if r.job_id = job_id then
          { r with status := Status.CANCELLED, worker_id := none, updated_at := now }
        else r))

/-- `routers/jobs.complete_job`: 404 for an unknown id; otherwise
force-sets status COMPLETED and the actuals, with no status guard. -/
def complete_job (store : Store) (job_id : String) (actual_latency_ms actual_cost_usd : Rat)
    (output_ref : Option String) (now : Nat) : Except ApiError Store :=
  match get_job store job_id with
  | none => Except.error (ApiError.notFound "job_id not found")
  | some _ =>
    Except.ok (store.map (fun r =>
      if r.job_id = job_id then
        { r with status := Status.COMPLETED
                 actual_latency_ms := some actual_latency_ms
                 actual_cost_usd := some actual_cost_usd
                 output_ref := output_ref
                 updated_at := now }
      else r))

/-- The `update_job` call of `scripts/sla_monitor._reroute`: sets only
`chosen_resource_id` / `chosen_resource_type` (never `status`). -/
def monitor_update_choice (store : Store) (job_id rid rtype : String) (now : Nat) : Store :=
  store.map (fun r =>
    if r.job_id = job_id then
      { r with chosen_resource_id := rid, chosen_resource_type := rtype, updated_at := now }
    else r)

/-- The exceptions `dispatcher.dispatch` can raise: the deliberate
`RuntimeError("FORCED_FAIL_FIRST: ...")`, or a failure coming out of the
execution adapter. -/
inductive DispatchError where
  | forcedFailFirst
  | adapterFailure (msg : String)
deriving DecidableEq, Repr

/-- `dispatch_adapters.DispatchResult`. -/
structure DispatchResult where
  actual_latency_ms : Rat
  actual_cost_usd : Rat
  output_ref : Option String
deriving DecidableEq, Repr

/-- `dispatcher.dispatch`, parameterized by the pluggable adapter
(`get_adapter_for(rtype).run`).  The stored request is parsed under a
handler that swallows only `ValidationError` (so an unparseable payload
yields `req = None`); the forced-failure raise sits outside that handler
and propagates. -/
def dispatch (adapterRun : JobRow → Except DispatchError DispatchResult)
    (job_row : JobRow) : Except DispatchError DispatchResult :=
  let attempts := job_row.attempts
  let req : Option JobRequest :=
    match job_row.job_request_json with
    | StoredRequest.parsed r => some r
    | StoredRequest.unparseable => none
    | StoredRequest.missing => none
  match req with
  | some r =>
    if r.hints.force_fail_first ∧ attempts = 1 then Except.error DispatchError.forcedFailFirst
    else adapterRun job_row
  | none => adapterRun job_row

/-- One row of the `job_attempts` table (`attempts.py`). -/
structure AttemptRow where
  attempt_id : String
  job_id : String
  attempt_no : Nat
  chosen_resource_id : String
  chosen_resource_type : String
  status : Status
  predicted_latency_ms : Option Rat
  predicted_cost_usd : Option Rat
  final_score : Option Rat
  sla_ok : Bool
  sla_violations_json : List String
  features_json : Option String
  actual_latency_ms : Option Rat
  actual_cost_usd : Option Rat
  output_ref : Option String
  error_class : Option String
  error_message : Option String
  traceback : Option String
  rerouted_from_resource_id : Option String
  rerouted_to_resource_id : Option String
deriving DecidableEq, Repr

/-- `attempts.create_attempt`: a RUNNING attempt row copied from the
claimed job row; `attempt_no` is the job's `attempts` counter, with a
falsy (zero) value coalesced to 1 (`int(job_row.get("attempts") or 1)`). -/
def create_attempt (attempt_id : String) (job_row : JobRow) : AttemptRow :=
  { attempt_id := attempt_id
    job_id := job_row.job_id
    attempt_no := if job_row.attempts = 0 then 1 else job_row.attempts
    chosen_resource_id := job_row.chosen_resource_id
    chosen_resource_type := job_row.chosen_resource_type
    status := Status.RUNNING
    predicted_latency_ms := job_row.predicted_latency_ms
    predicted_cost_usd := job_row.predicted_cost_usd
    final_score := job_row.final_score
    sla_ok := job_row.sla_ok
    sla_violations_json := job_row.sla_violations_json
    features_json := job_row.features_json
    actual_latency_ms := none
    actual_cost_usd := none
    output_ref := none
    error_class := none
    error_message := none
    traceback := none
    rerouted_from_resource_id := none
    rerouted_to_resource_id := none }

/-- `attempts.finish_attempt_failure`: close the attempt as FAILED with
the error class, message and traceback. -/
def finish_attempt_failure (a : AttemptRow) (error_class error_message traceback_str : String) :
    AttemptRow :=
  { a with status := Status.FAILED
           error_class := some error_class
           error_message := some error_message
           traceback := some traceback_str }

/-- `attempts.finish_attempt_success`. -/
def finish_attempt_success (a : AttemptRow) (actual_latency_ms actual_cost_usd : Rat)
    (output_ref : Option String) : AttemptRow :=
  { a with status := Status.COMPLETED
           actual_latency_ms := some actual_latency_ms
           actual_cost_usd := some actual_cost_usd
           output_ref := output_ref }

/-- `worker._backoff_iso`, delay part: `min(60, 2 ** max(1, attempts))`
seconds. -/
def backoffDelay (attempts : Nat) : Nat :=
  min 60 (2 ^ max 1 attempts)

/-- Python's `list(dict.fromkeys(xs))`: de-duplication keeping the first
occurrence. -/
def dedupFirst : List String → List String
  | [] => []
  | a :: l => a :: dedupFirst (l.filter (fun b => decide (b ≠ a)))
termination_by l => l.length
decreasing_by
  simp only [List.length_cons]
  exact Nat.lt_succ_of_le (List.length_filter_le _ _)

/-- The hint rewrite `_reroute_job` performs before re-routing: append the
current resource id (when truthy and not the sentinel) to the exclusion
list and de-duplicate it keeping first occurrences. -/
def withExcludedCurrent (req : JobRequest) (cur : String) : JobRequest :=
  { req with hints := { req.hints with exclude_resource_ids := dedupFirst (if cur ≠ "" ∧ cur ≠ "none" then req.hints.exclude_resource_ids ++ [cur] else req.hints.exclude_resource_ids) } }

/-- The rerouted request constructed by `worker._reroute_job` (and
identically by `sla_monitor._reroute`); a missing or unparseable stored
request aborts the reroute. -/
def rerouteRequest (row : JobRow) : Option JobRequest :=
  match row.job_request_json with
  | StoredRequest.parsed req => some (withExcludedCurrent req row.chosen_resource_id)
  | _ => none

/-- `worker._reroute_job`: build the exclusion-augmented request, route
it, and on a non-sentinel decision rewrite the job row's chosen resource
and predicted metrics and record the reroute on the attempt row.
Returns the possibly-updated job row and attempt row, plus the request
that was routed (when one was built). -/
def reroute_job (P : Predictors) (env : List TelemetryPoint) (row : JobRow)
    (att : AttemptRow) : JobRow × AttemptRow × Option JobRequest :=
  match rerouteRequest row with
  | none => (row, att, none)
  | some req =>
    let decision := route P env req
    if decision.chosen_resource_id = "none" then (row, att, some req)
    else
      let cs := chosenScore decision
      ({ row with chosen_resource_id := decision.chosen_resource_id
                  chosen_resource_type := decision.chosen_resource_type
                  predicted_latency_ms := cs.map (fun s => s.latency_pred_ms)
                  predicted_cost_usd := cs.map (fun s => s.cost_pred_usd)
                  final_score := cs.map (fun s => s.final_score)
                  sla_ok := match cs with | some s => s.sla_ok | none => false
                  sla_violations_json := match cs with | some s => s.sla_violations | none => [] },
       { att with rerouted_from_resource_id := some row.chosen_resource_id
                  rerouted_to_resource_id := some decision.chosen_resource_id },
       some req)

/-- Outcome of the worker's dispatch-failure handling: the final attempt
row, the final job row, and the request handed to the router when a
reroute was attempted. -/
structure FailureOutcome where
  attempt : AttemptRow
  job : JobRow
  rerouted : Option JobRequest
deriving Repr

/-- The `except` branch of `worker.main` (worker.py lines 193-217): close
the attempt as FAILED; coalesce falsy `attempts`/`max_attempts` to 1/2;
if retries remain, reroute (when `REROUTE_ON_RETRY`) and re-queue with
backoff and the worker assignment cleared; otherwise mark the job
FAILED. -/
def handle_dispatch_failure (P : Predictors) (env : List TelemetryPoint)
    (worker_id : String) (now : Nat) (rerouteOnRetry : Bool)
    (row : JobRow) (att : AttemptRow) (error_class error_message traceback_str : String) :
    FailureOutcome :=
  let att1 := finish_attempt_failure att error_class error_message traceback_str
  let attempts := if row.attempts = 0 then 1 else row.attempts
  let maxA := if row.max_attempts = 0 then 2 else row.max_attempts
  let rra :=
    if rerouteOnRetry ∧ attempts < maxA then reroute_job P env row att1
    else (row, att1, none)
  let row1 := rra.1
  let att2 := rra.2.1
  let rerouted := rra.2.2
  if attempts < maxA then
    { attempt := att2
      job := { row1 with status := Status.QUEUED
                         next_run_at := some (now + backoffDelay attempts)
                         worker_id := none
                         updated_at := now }
      rerouted := rerouted }
  else
    { attempt := att2
      job := { row1 with status := Status.FAILED
                         worker_id := some worker_id
                         updated_at := now }
      rerouted := rerouted }

/-! ## Concrete fixtures for closed instances -/

/-- A baseline jobs-table row used by the concrete instances. -/
def baseRow : JobRow :=
  { job_id := "job-0", job_type := "batch", urgency := 1, payload_size_mb := 1,
    requires_gpu := false, allow_sla_fallback := true,
    sla_deadline_ms := none, sla_max_cost_usd := none, sla_min_reliability := none,
    job_request_json := StoredRequest.missing,
    status := Status.QUEUED, attempts := 0, max_attempts := 2, next_run_at := none,
    chosen_resource_id := "edge-1", chosen_resource_type := "edge", worker_id := none,
    created_at := 1, updated_at := 1,
    predicted_latency_ms := none, predicted_cost_usd := none, final_score := none,
    sla_ok := false, sla_violations_json := [],
    actual_latency_ms := none, actual_cost_usd := none, output_ref := none,
    features_json := none }

/-- A healthy edge resource snapshot. -/
def tpEdge : TelemetryPoint :=
  { resource_id := "edge-1", resource_type := "edge", cpu_util := mkRat 1 2, mem_util := mkRat 1 2,
    gpu_util := 0, net_rtt_ms := 50, net_bw_mbps := 100, price_per_hour_usd := mkRat 5 100,
    reliability := mkRat 95 100, power_w := 50 }

/-- An unconstrained job request. -/
def jobPlain : JobRequest :=
  { job_id := "job-a", job_type := "batch", urgency := 1, payload_size_mb := 10,
    requires_gpu := false, allow_sla_fallback := true, sla := {}, hints := {} }

/-- A job with an unmeetable reliability requirement and fallback disallowed. -/
def jobStrict : JobRequest :=
  { jobPlain with job_id := "job-b", allow_sla_fallback := false,
                  sla := { min_reliability := some 1 } }

/-- A job request carrying the forced-failure testing hint. -/
def reqForce : JobRequest :=
  { jobPlain with job_id := "job-c", hints := { force_fail_first := true } }

def rowForce : JobRow :=
  { baseRow with job_id := "job-c", job_request_json := StoredRequest.parsed reqForce,
                 attempts := 1 }

/-- An adapter that always succeeds. -/
def adapterOk : JobRow → Except DispatchError DispatchResult :=
  fun _ => Except.ok { actual_latency_ms := 100, actual_cost_usd := 1, output_ref := some "out" }

def reqRetry : JobRequest := { jobPlain with job_id := "job-d" }

def rowRetry : JobRow :=
  { baseRow with job_id := "job-d", job_request_json := StoredRequest.parsed reqRetry,
                 attempts := 1, max_attempts := 2, status := Status.RUNNING }

def attRetry : AttemptRow := create_attempt "att-1" rowRetry

def rowFailedFx : JobRow := { baseRow with job_id := "job-f", status := Status.FAILED }

def rowCancelledFx : JobRow := { baseRow with job_id := "job-g", status := Status.CANCELLED }

def rowRunningFx : JobRow :=
  { baseRow with job_id := "job-h", status := Status.RUNNING, worker_id := some "w0" }

def rowQueuedFx : JobRow := { baseRow with job_id := "job-q", created_at := 3 }

def rowOldFx : JobRow :=
  { baseRow with job_id := "job-j", status := Status.COMPLETED, attempts := 2,
                 features_json := some "feat" }

def jobResubmit : JobRequest := { jobPlain with job_id := "job-j" }

/-! ## General lemmas about the list combinators used by the embedding -/

theorem maxByFirst_mem {α : Type} (k : α → Rat) (x : α) (xs : List α) :
    maxByFirst k x xs ∈ x :: xs := by
  induction xs generalizing x with
  | nil => simp [maxByFirst]
  | cons y ys ih =>
    have h1 : maxByFirst k x (y :: ys) = maxByFirst k (if k x < k y then y else x) ys := rfl
    rw [h1]
    rcases List.mem_cons.mp (ih (if k x < k y then y else x)) with h | h
    · rw [h]
      split
      · exact List.mem_cons_of_mem _ (List.mem_cons_self _ _)
      · exact List.mem_cons_self _ _
    · exact List.mem_cons_of_mem _ (List.mem_cons_of_mem _ h)

theorem le_maxByFirst {α : Type} (k : α → Rat) (x : α) (xs : List α) :
    ∀ b ∈ x :: xs, k b ≤ k (maxByFirst k x xs) := by
  induction xs generalizing x with
  | nil =>
    intro b hb
    rcases List.mem_cons.mp hb with h | h
    · rw [h]; simp [maxByFirst]
    · cases h
  | cons y ys ih =>
    intro b hb
    have h1 : maxByFirst k x (y :: ys) = maxByFirst k (if k x < k y then y else x) ys := rfl
    rw [h1]
    have hz : k x ≤ k (if k x < k y then y else x) ∧ k y ≤ k (if k x < k y then y else x) := by
      split
      · next h => exact ⟨le_of_lt h, le_refl _⟩
      · next h => exact ⟨le_refl _, le_of_not_lt h⟩
    have hzm : k (if k x < k y then y else x) ≤ k (maxByFirst k (if k x < k y then y else x) ys) :=
      ih _ _ (List.mem_cons_self _ _)
    rcases List.mem_cons.mp hb with h | h
    · rw [h]; exact le_trans hz.1 hzm
    · rcases List.mem_cons.mp h with h2 | h2
      · rw [h2]; exact le_trans hz.2 hzm
      · exact ih _ b (List.mem_cons_of_mem _ h2)

theorem maxByFirst_eq_or_lt {α : Type} (k : α → Rat) (x : α) (xs : List α) :
    maxByFirst k x xs = x ∨ k x < k (maxByFirst k x xs) := by
  induction xs generalizing x with
  | nil => left; rfl
  | cons y ys ih =>
    have h1 : maxByFirst k x (y :: ys) = maxByFirst k (if k x < k y then y else x) ys := rfl
    rw [h1]
    by_cases h : k x < k y
    · right
      rw [if_pos h]
      exact lt_of_lt_of_le h (le_maxByFirst k y ys y (List.mem_cons_self _ _))
    · rw [if_neg h]
      exact ih x

theorem find?_maxByFirst {α : Type} (k : α → Rat) (x : α) (xs : List α) :
    (x :: xs).find? (fun b => decide (k b = k (maxByFirst k x xs))) =
      some (maxByFirst k x xs) := by
  have aux : ∀ (xs : List α) (x : α),
      maxByFirst k x xs = x ∨
      (xs.find? (fun b => decide (k b = k (maxByFirst k x xs))) = some (maxByFirst k x xs) ∧
       k x < k (maxByFirst k x xs)) := by
    intro xs
    induction xs with
    | nil => intro x; left; rfl
    | cons y ys ih =>
      intro x
      have h1 : maxByFirst k x (y :: ys) = maxByFirst k (if k x < k y then y else x) ys := rfl
      by_cases h : k x < k y
      · rw [if_pos h] at h1
        right
        rcases ih y with hy | ⟨hfind, hlt⟩
        · constructor
          · rw [h1, hy, List.find?_cons]
            simp
          · rw [h1, hy]; exact h
        · constructor
          · rw [h1, List.find?_cons]
            have hne : ¬ (k y = k (maxByFirst k y ys)) := ne_of_lt hlt
            simp only [decide_eq_false hne]
            exact hfind
          · rw [h1]; exact lt_trans h hlt
      · rw [if_neg h] at h1
        rcases ih x with hy | ⟨hfind, hlt⟩
        · left; rw [h1, hy]
        · right
          constructor
          · rw [h1, List.find?_cons]
            have hyx : k y ≤ k x := le_of_not_lt h
            have hne : ¬ (k y = k (maxByFirst k x ys)) := ne_of_lt (lt_of_le_of_lt hyx hlt)
            simp only [decide_eq_false hne]
            exact hfind
          · rw [h1]; exact hlt
  rcases aux xs x with hx | ⟨hfind, hlt⟩
  · rw [List.find?_cons, hx]
    simp
  · rw [List.find?_cons]
    have hne : ¬ (k x = k (maxByFirst k x xs)) := ne_of_lt hlt
    simp only [decide_eq_false hne]
    exact hfind

theorem minByFirst_mem {α : Type} (k : α → Nat) (x : α) (xs : List α) :
    minByFirst k x xs ∈ x :: xs := by
  induction xs generalizing x with
  | nil => simp [minByFirst]
  | cons y ys ih =>
    have h1 : minByFirst k x (y :: ys) = minByFirst k (if k y < k x then y else x) ys := rfl
    rw [h1]
    rcases List.mem_cons.mp (ih (if k y < k x then y else x)) with h | h
    · rw [h]
      split
      · exact List.mem_cons_of_mem _ (List.mem_cons_self _ _)
      · exact List.mem_cons_self _ _
    · exact List.mem_cons_of_mem _ (List.mem_cons_of_mem _ h)

theorem minByFirst_le {α : Type} (k : α → Nat) (x : α) (xs : List α) :
    ∀ b ∈ x :: xs, k (minByFirst k x xs) ≤ k b := by
  induction xs generalizing x with
  | nil =>
    intro b hb
    rcases List.mem_cons.mp hb with h | h
    · rw [h]; simp [minByFirst]
    · cases h
  | cons y ys ih =>
    intro b hb
    have h1 : minByFirst k x (y :: ys) = minByFirst k (if k y < k x then y else x) ys := rfl
    rw [h1]
    have hz : k (if k y < k x then y else x) ≤ k x ∧ k (if k y < k x then y else x) ≤ k y := by
      split
      · next h => exact ⟨le_of_lt h, le_refl _⟩
      · next h => exact ⟨le_refl _, le_of_not_lt h⟩
    have hzm : k (minByFirst k (if k y < k x then y else x) ys) ≤ k (if k y < k x then y else x) :=
      ih _ _ (List.mem_cons_self _ _)
    rcases List.mem_cons.mp hb with h | h
    · rw [h]; exact le_trans hzm hz.1
    · rcases List.mem_cons.mp h with h2 | h2
      · rw [h2]; exact le_trans hzm hz.2
      · exact ih _ b (List.mem_cons_of_mem _ h2)

theorem mem_dedupFirst (l : List String) (a : String) : a ∈ dedupFirst l ↔ a ∈ l := by
  generalize hn : l.length = n
  induction n using Nat.strong_induction_on generalizing l with
  | _ n ih =>
    match l with
    | [] => simp [dedupFirst]
    | b :: t =>
      rw [dedupFirst]
      have hlen : (t.filter (fun c => decide (c ≠ b))).length < n := by
        rw [← hn]
        simp only [List.length_cons]
        exact Nat.lt_succ_of_le (List.length_filter_le _ _)
      have ih2 := ih _ hlen (t.filter (fun c => decide (c ≠ b))) rfl
      simp only [List.mem_cons, ih2, List.mem_filter, decide_eq_true_eq]
      by_cases hab : a = b
      · simp [hab]
      · simp [hab]

theorem str_data_append (a b : String) : (a ++ b).data = a.data ++ b.data := by
  cases a; cases b; rfl

theorem take2_append {lit : List Char} (rest : List Char) (h : 2 ≤ lit.length) :
    (lit ++ rest).take 2 = lit.take 2 :=
  List.take_append_of_le_length h

theorem msgDeadline_ne_msgMaxCost (a b c d : Rat) : msgDeadline a b ≠ msgMaxCost c d := by
  intro h
  have h2 : (msgDeadline a b).data.take 2 = (msgMaxCost c d).data.take 2 := by rw [h]
  rw [msgDeadline, msgMaxCost] at h2
  simp only [str_data_append, List.append_assoc] at h2
  rw [take2_append _ (by decide), take2_append _ (by decide)] at h2
  exact absurd h2 (by decide)

theorem msgDeadline_ne_msgMinReliability (a b c d : Rat) :
    msgDeadline a b ≠ msgMinReliability c d := by
  intro h
  have h2 : (msgDeadline a b).data.take 2 = (msgMinReliability c d).data.take 2 := by rw [h]
  rw [msgDeadline, msgMinReliability] at h2
  simp only [str_data_append, List.append_assoc] at h2
  rw [take2_append _ (by decide), take2_append _ (by decide)] at h2
  exact absurd h2 (by decide)

theorem msgMaxCost_ne_msgMinReliability (a b c d : Rat) :
    msgMaxCost a b ≠ msgMinReliability c d := by
  intro h
  have h2 : (msgMaxCost a b).data.take 2 = (msgMinReliability c d).data.take 2 := by rw [h]
  rw [msgMaxCost, msgMinReliability] at h2
  simp only [str_data_append, List.append_assoc] at h2
  rw [take2_append _ (by decide), take2_append _ (by decide)] at h2
  exact absurd h2 (by decide)

/-- `get_job` through a per-row update that never changes `job_id`. -/
theorem get_job_map_pres (store : Store) (jid : String) (f : JobRow → JobRow)
    (hf : ∀ r, (f r).job_id = r.job_id) :
    get_job (store.map f) jid = (get_job store jid).map f := by
  induction store with
  | nil => rfl
  | cons r rs ih =>
    simp only [List.map_cons, get_job, List.find?_cons] at *
    by_cases h : r.job_id = jid
    · have : (f r).job_id = jid := by rw [hf r, h]
      simp [h, this]
    · have : ¬ (f r).job_id = jid := by rw [hf r]; exact h
      simp only [this, h, decide_eq_false, decide_eq_true_eq]
      simpa using ih

theorem get_job_append_of_none {store : Store} {jid : String}
    (h : get_job store jid = none) (l2 : Store) :
    get_job (store ++ l2) jid = get_job l2 jid := by
  induction store with
  | nil => rfl
  | cons r rs ih =>
    simp only [get_job, List.find?_cons] at h ⊢
    by_cases hr : r.job_id = jid
    · simp [hr] at h
    · simp only [hr, decide_eq_false, decide_eq_true_eq] at h ⊢
      simp only [List.cons_append]
      rw [List.find?_cons]
      simp only [hr, decide_eq_false, decide_eq_true_eq]
      exact ih h

theorem find?_eq_some_of_any {p : JobRow → Bool} {store : Store} {x : JobRow}
    (h : store.find? p = some x) : store.any p = true :=
  List.any_eq_true.mpr ⟨x, List.mem_of_find?_eq_some h, List.find?_some h⟩

/-! ## Facts about the routing pipeline -/

theorem mem_of_mem_forceTypeFilter {job : JobRequest} {cs : List TelemetryPoint}
    {t : TelemetryPoint} (h : t ∈ forceTypeFilter job cs) : t ∈ cs := by
  unfold forceTypeFilter at h
  rcases hft : job.hints.force_resource_type with _ | ft <;> simp only [hft] at h
  · exact h
  · exact (List.mem_filter.mp h).1

theorem mem_of_mem_forceIdFilter {job : JobRequest} {cs : List TelemetryPoint}
    {t : TelemetryPoint} (h : t ∈ forceIdFilter job cs) : t ∈ cs := by
  unfold forceIdFilter at h
  rcases hfid : job.hints.force_resource_id with _ | fid <;> simp only [hfid] at h
  · exact h
  · exact (List.mem_filter.mp h).1

theorem mem_of_mem_excludeFilter {job : JobRequest} {cs : List TelemetryPoint}
    {t : TelemetryPoint} (h : t ∈ excludeFilter job cs) : t ∈ cs := by
  unfold excludeFilter at h
  by_cases hx : job.hints.exclude_resource_ids ≠ []
  · rw [if_pos hx] at h
    exact (List.mem_filter.mp h).1
  · rw [if_neg hx] at h
    exact h

theorem mem_of_mem_hintFilter {job : JobRequest} {env : List TelemetryPoint}
    {t : TelemetryPoint} (h : t ∈ hintFilter job env) : t ∈ env :=
  mem_of_mem_excludeFilter (mem_of_mem_forceIdFilter (mem_of_mem_forceTypeFilter h))

theorem not_excluded_of_mem_hintFilter {job : JobRequest} {env : List TelemetryPoint}
    {t : TelemetryPoint} (h : t ∈ hintFilter job env) :
    t.resource_id ∉ job.hints.exclude_resource_ids := by
  have h1 : t ∈ excludeFilter job env :=
    mem_of_mem_forceIdFilter (mem_of_mem_forceTypeFilter h)
  unfold excludeFilter at h1
  by_cases hx : job.hints.exclude_resource_ids ≠ []
  · rw [if_pos hx] at h1
    have := (List.mem_filter.mp h1).2
    simpa using this
  · rw [not_ne_iff] at hx
    rw [hx]
    simp

/-- Elements of the router's scored list: a hint-filtered, eligible
snapshot paired with its own score. -/
theorem mem_scoredCandidates {P : Predictors} {env : List TelemetryPoint} {job : JobRequest}
    {p : TelemetryPoint × ScoreBreakdown} (h : p ∈ scoredCandidates P env job) :
    p.1 ∈ hintFilter job env ∧ eligible p.1 job = true ∧ p.2 = score_resource P p.1 job := by
  unfold scoredCandidates at h
  rcases List.mem_map.mp h with ⟨t, ht, hp⟩
  rcases List.mem_filter.mp ht with ⟨ht1, ht2⟩
  refine ⟨?_, ?_, ?_⟩
  · rw [← hp]; exact ht1
  · rw [← hp]; exact ht2
  · rw [← hp]

/-- What `_eligible` guarantees: the reliability floor and the GPU
requirement. -/
theorem eligible_spec {t : TelemetryPoint} {job : JobRequest} (h : eligible t job = true) :
    ¬ (t.reliability < mkRat 85 100) ∧ (job.requires_gpu = true → t.resource_type = "gpu") := by
  unfold eligible at h
  by_cases h1 : job.requires_gpu ∧ t.resource_type ≠ "gpu"
  · rw [if_pos h1] at h; cases h
  · rw [if_neg h1] at h
    by_cases h2 : (if t.reliability = 0 then (0 : Rat) else t.reliability) < mkRat 85 100
    · rw [if_pos h2] at h; cases h
    · constructor
      · by_cases h0 : t.reliability = 0
        · exfalso
          rw [if_pos h0] at h2
          exact h2 (by norm_num)
        · rw [if_neg h0] at h2
          exact h2
      · intro hg
        by_contra hne
        exact h1 ⟨hg, hne⟩

/-- In `score_resource`'s output, `sla_ok` is exactly emptiness of the
violation list. -/
theorem score_resource_sla_ok_iff (P : Predictors) (t : TelemetryPoint) (job : JobRequest) :
    (score_resource P t job).sla_ok = true ↔ (score_resource P t job).sla_violations = [] := by
  unfold score_resource
  simp only [decide_eq_true_eq, List.length_eq_zero]

/-- Members of the `ok` list are scored candidates with `sla_ok` set. -/
theorem mem_okCandidates {P : Predictors} {env : List TelemetryPoint} {job : JobRequest}
    {p : TelemetryPoint × ScoreBreakdown} (h : p ∈ okCandidates P env job) :
    p ∈ scoredCandidates P env job ∧ p.2.sla_ok = true := by
  unfold okCandidates at h
  exact List.mem_filter.mp h

/-- Members of the `bad` list are scored candidates. -/
theorem mem_badCandidates {P : Predictors} {env : List TelemetryPoint} {job : JobRequest}
    {p : TelemetryPoint × ScoreBreakdown} (h : p ∈ badCandidates P env job) :
    p ∈ scoredCandidates P env job := by
  unfold badCandidates at h
  exact (List.mem_filter.mp h).1

/-- Whatever branch `route` takes, the chosen resource is the sentinel
"none" or comes from the scored candidate list. -/
theorem route_chosen_cases (P : Predictors) (env : List TelemetryPoint) (job : JobRequest) :
    (route P env job).chosen_resource_id = "none" ∨
    ∃ p ∈ scoredCandidates P env job,
      (route P env job).chosen_resource_id = p.1.resource_id ∧
      (route P env job).chosen_resource_type = p.1.resource_type := by
  rcases hok : okCandidates P env job with _ | ⟨tb, rest⟩
  · rcases hf : job.allow_sla_fallback with _ | _
    · left
      simp [route, hok, hf]
    · rcases hbad : badCandidates P env job with _ | ⟨tb2, rest2⟩
      · left
        simp [route, hok, hbad, hf]
      · right
        refine ⟨maxByFirst (fun p => p.2.effective_score) tb2 rest2, ?_, ?_, ?_⟩
        · have hmem := maxByFirst_mem (fun p => p.2.effective_score) tb2 rest2
          rw [← hbad] at hmem
          exact mem_badCandidates hmem
        · simp [route, hok, hbad, hf]
        · simp [route, hok, hbad, hf]
  · right
    refine ⟨maxByFirst (fun p => p.2.final_score) tb rest, ?_, ?_, ?_⟩
    · have hmem := maxByFirst_mem (fun p => p.2.final_score) tb rest
      rw [← hok] at hmem
      exact (mem_okCandidates hmem).1
    · simp [route, hok]
    · simp [route, hok]

/-- `get_job` after `upsert_job` finds the fresh row's data (the pre-existing
`features_json`, not overwritten by the upsert, apart). -/
theorem get_job_upsert_status (row : JobRow) (store : Store) :
    (get_job (upsert_job row store) row.job_id).map JobRow.status = some row.status := by
  unfold upsert_job
  by_cases h : store.any (fun r => decide (r.job_id = row.job_id)) = true
  · rw [if_pos h]
    rw [get_job_map_pres store row.job_id _ (fun r => by by_cases hr : r.job_id = row.job_id <;> simp [hr])]
    cases hg : get_job store row.job_id with
    | some r0 =>
      have hr0 : r0.job_id = row.job_id := by
        have := List.find?_some hg
        simpa using this
      simp [hr0]
    | none =>
      exfalso
      rcases List.any_eq_true.mp h with ⟨x, hx, hxid⟩
      have := List.find?_eq_none.mp hg x hx
      exact this hxid
  · rw [if_neg h]
    have hg : get_job store row.job_id = none := by
      cases hg : get_job store row.job_id with
      | none => rfl
      | some r0 =>
        exact absurd (find?_eq_some_of_any hg) h
    rw [get_job_append_of_none hg]
    simp [get_job]

/-! ## Claim theorems -/

/-- C2: whenever at least one scored candidate has `sla_ok`, `route`
chooses the SLA-compliant candidate with the highest `final_score` —
never an SLA violator and never a hint-excluded resource — and ties on
`final_score` go to the first candidate in encounter order. -/
theorem route_sla_first_choice (P : Predictors) (env : List TelemetryPoint) (job : JobRequest)
    (h : okCandidates P env job ≠ []) :
    ∃ best ∈ okCandidates P env job,
      (route P env job).chosen_resource_id = best.1.resource_id ∧
      (route P env job).chosen_resource_type = best.1.resource_type ∧
      best.2.sla_ok = true ∧
      best.2.sla_violations = [] ∧
      (∀ p ∈ okCandidates P env job, p.2.final_score ≤ best.2.final_score) ∧
      (okCandidates P env job).find?
          (fun p => decide (p.2.final_score = best.2.final_score)) = some best ∧
      best.1.resource_id ∉ job.hints.exclude_resource_ids := by
  rcases hok : okCandidates P env job with _ | ⟨tb, rest⟩
  · exact absurd hok h
  · have hmem0 := maxByFirst_mem (fun p => p.2.final_score) tb rest
    have hmem : maxByFirst (fun p => p.2.final_score) tb rest ∈ okCandidates P env job := by
      rw [hok]; exact hmem0
    have hsc := (mem_okCandidates hmem).1
    have hok2 := (mem_okCandidates hmem).2
    have h3 := (mem_scoredCandidates hsc).2.2
    refine ⟨maxByFirst (fun p => p.2.final_score) tb rest, hmem0, ?_, ?_, hok2, ?_, ?_, ?_, ?_⟩
    · simp [route, hok]
    · simp [route, hok]
    · rw [h3]
      apply (score_resource_sla_ok_iff P _ job).mp
      rw [← h3]
      exact hok2
    · intro p hp
      exact le_maxByFirst (fun p => p.2.final_score) tb rest p hp
    · exact find?_maxByFirst _ tb rest
    · exact not_excluded_of_mem_hintFilter (mem_scoredCandidates hsc).1

/-- C3: `route` never chooses a resource whose latest reliability is
below the 0.85 floor, nor a non-GPU resource for a GPU-requiring job;
the only alternative is the sentinel "none" decision. -/
theorem route_hard_gates (P : Predictors) (env : List TelemetryPoint) (job : JobRequest) :
    (route P env job).chosen_resource_id = "none" ∨
    ∃ t ∈ env, t.resource_id = (route P env job).chosen_resource_id ∧
      ¬ (t.reliability < mkRat 85 100) ∧
      (job.requires_gpu = true → t.resource_type = "gpu") := by
  rcases route_chosen_cases P env job with h | ⟨p, hp, hid, _⟩
  · left; exact h
  · right
    have hm := mem_scoredCandidates hp
    have hel := eligible_spec hm.2.1
    exact ⟨p.1, mem_of_mem_hintFilter hm.1, hid.symm, hel.1, hel.2⟩

/-- C4: with no SLA-compliant candidate and fallback disallowed, `route`
returns the sentinel "no resource" decision (with a non-empty
explanation), and submitting such a job stores it BLOCKED, not QUEUED. -/
theorem blocked_when_no_sla_no_fallback (P : Predictors) (env : List TelemetryPoint)
    (store : Store) (job : JobRequest) (now : Nat)
    (h1 : okCandidates P env job = [])
    (h2 : job.allow_sla_fallback = false) :
    (route P env job).chosen_resource_id = "none" ∧
    (route P env job).explanation ≠ "" ∧
    (get_job (submit_job P env store job now).2 job.job_id).map JobRow.status =
      some Status.BLOCKED ∧
    (get_job (submit_job P env store job now).2 job.job_id).map JobRow.status ≠
      some Status.QUEUED := by
  have hchosen : (route P env job).chosen_resource_id = "none" := by
    simp [route, h1, h2]
  have hexp : (route P env job).explanation ≠ "" := by
    simp [route, h1, h2]
  have hjid : (buildSubmitRow (route P env job) job now).job_id = job.job_id := rfl
  have hstat : (buildSubmitRow (route P env job) job now).status = Status.BLOCKED := by
    simp [buildSubmitRow, hchosen]
  have hget := get_job_upsert_status (buildSubmitRow (route P env job) job now) store
  rw [hjid, hstat] at hget
  have hget2 : (get_job (submit_job P env store job now).2 job.job_id).map JobRow.status =
      some Status.BLOCKED := hget
  refine ⟨hchosen, hexp, hget2, ?_⟩
  rw [hget2]
  simp

/-- C5: `score_resource` records exactly one violation (with a distinct
message) per SLA bound exceeded by the conservative estimates, skipping
absent bounds; `sla_ok` is emptiness of the violation list; and the
effective score is the final score minus 0.35 per violation. -/
theorem score_resource_sla_spec (P : Predictors) (t : TelemetryPoint) (job : JobRequest) :
    (score_resource P t job).sla_violations =
      sla_check job (latencyOf P t job).p90_ms (costOf P t job).p90_usd (relOf t) ∧
    (score_resource P t job).sla_violations.length =
      ((match job.sla.deadline_ms with
        | some d => if (latencyOf P t job).p90_ms > d then 1 else 0
        | none => 0) +
       (match job.sla.max_cost_usd with
        | some m => if (costOf P t job).p90_usd > m then 1 else 0
        | none => 0) +
       (match job.sla.min_reliability with
        | some m => if relOf t < m then 1 else 0
        | none => 0)) ∧
    ((score_resource P t job).sla_ok = true ↔ (score_resource P t job).sla_violations = []) ∧
    (score_resource P t job).effective_score =
      (score_resource P t job).final_score -
        mkRat 35 100 * ((score_resource P t job).sla_violations.length : Rat) ∧
    (∀ a b c d : Rat,
      msgDeadline a b ≠ msgMaxCost c d ∧
      msgDeadline a b ≠ msgMinReliability c d ∧
      msgMaxCost a b ≠ msgMinReliability c d) := by
  refine ⟨rfl, ?_, score_resource_sla_ok_iff P t job, rfl, ?_⟩
  · show (sla_check job (latencyOf P t job).p90_ms (costOf P t job).p90_usd (relOf t)).length = _
    unfold sla_check
    rcases job.sla.deadline_ms with _ | d <;>
      rcases job.sla.max_cost_usd with _ | m <;>
        rcases job.sla.min_reliability with _ | r <;>
          simp [List.length_append, apply_ite List.length, Nat.add_assoc]
  · exact fun a b c d =>
      ⟨msgDeadline_ne_msgMaxCost a b c d, msgDeadline_ne_msgMinReliability a b c d,
       msgMaxCost_ne_msgMinReliability a b c d⟩

/-- Unpacking the claim-eligibility test. -/
theorem claimEligible_spec {now : Nat} {r : JobRow} (h : claimEligible now r = true) :
    r.status = Status.QUEUED ∧
      (r.next_run_at = none ∨ ∃ t, r.next_run_at = some t ∧ t ≤ now) := by
  unfold claimEligible at h
  rw [Bool.and_eq_true] at h
  constructor
  · exact of_decide_eq_true h.1
  · rcases hn : r.next_run_at with _ | t
    · left; rfl
    · right
      refine ⟨t, rfl, ?_⟩
      have h2 := h.2
      rw [hn] at h2
      exact of_decide_eq_true h2

theorem length_le_one_of_nodup_const {l : List String} {c : String}
    (hn : l.Nodup) (hc : ∀ x ∈ l, x = c) : l.length ≤ 1 := by
  match l with
  | [] => simp
  | [a] => simp
  | a :: b :: t =>
    exfalso
    have ha : a = c := hc a (List.mem_cons_self _ _)
    have hb : b = c := hc b (List.mem_cons_of_mem _ (List.mem_cons_self _ _))
    have : a ∉ b :: t := (List.nodup_cons.mp hn).1
    exact this (by rw [ha, ← hb]; exact List.mem_cons_self _ _)

/-- Under unique job ids, the conditional claim UPDATE for a QUEUED row
that is in the table affects exactly one row. -/
theorem condUpdateClaim_rowcount_one {store : Store} {row : JobRow}
    (hids : (store.map JobRow.job_id).Nodup) (hrow : row ∈ store)
    (hq : row.status = Status.QUEUED) (worker_id : String) (now : Nat) :
    (condUpdateClaim worker_id now row.job_id store).2 = 1 := by
  unfold condUpdateClaim
  set p : JobRow → Bool := fun r => decide (r.job_id = row.job_id ∧ r.status = Status.QUEUED)
    with hp
  have hmem : row ∈ store.filter p := by
    apply List.mem_filter.mpr
    exact ⟨hrow, by simp [hp, hq]⟩
  have hsub : (store.filter p).Sublist store := List.filter_sublist store
  have hnodup : ((store.filter p).map JobRow.job_id).Nodup :=
    (hsub.map JobRow.job_id).nodup hids
  have hconst : ∀ x ∈ (store.filter p).map JobRow.job_id, x = row.job_id := by
    intro x hx
    rcases List.mem_map.mp hx with ⟨r, hr, hxr⟩
    have := (List.mem_filter.mp hr).2
    rw [hp] at this
    rw [← hxr]
    exact (of_decide_eq_true this).1
  have hle : (store.filter p).length ≤ 1 := by
    have := length_le_one_of_nodup_const hnodup hconst
    simpa using this
  have hge : 1 ≤ (store.filter p).length := by
    rcases hf : store.filter p with _ | ⟨a, l⟩
    · rw [hf] at hmem; cases hmem
    · simp
  exact le_antisymm hle hge

/-- Under unique job ids, the first row found for a member's id is that
member. -/
theorem get_job_of_mem_nodup {store : Store} {row : JobRow}
    (hids : (store.map JobRow.job_id).Nodup) (hrow : row ∈ store) :
    get_job store row.job_id = some row := by
  cases hg : get_job store row.job_id with
  | none =>
    exfalso
    have := List.find?_eq_none.mp hg row hrow
    simp at this
  | some r0 =>
    have hr0mem : r0 ∈ store := List.mem_of_find?_eq_some hg
    have hr0id : r0.job_id = row.job_id := by
      have := List.find?_some hg
      simpa using this
    have := List.inj_on_of_nodup_map hids hr0mem hrow hr0id
    rw [this]

/-- C1: under the jobs table's primary-key invariant, `claim_next_job`
atomically claims the oldest due QUEUED job — setting it RUNNING with
`attempts` incremented, the worker assigned and `next_run_at` cleared,
leaving every other job unchanged — and returns `none` (rather than
raising) both when no job is eligible and when the conditional
status-guarded UPDATE affects zero rows (in which case the table is
untouched). -/
theorem claim_next_job_correct (worker_id : String) (now : Nat) (store : Store)
    (hids : (store.map JobRow.job_id).Nodup) :
    (selectNextQueued now store = none → claim_next_job worker_id now store = (none, store)) ∧
    (∀ row, selectNextQueued now store = some row →
      row ∈ store ∧
      row.status = Status.QUEUED ∧
      (row.next_run_at = none ∨ ∃ t, row.next_run_at = some t ∧ t ≤ now) ∧
      (∀ r ∈ store, claimEligible now r = true → row.created_at ≤ r.created_at) ∧
      (claim_next_job worker_id now store).1 = some row ∧
      get_job (claim_next_job worker_id now store).2 row.job_id =
        some (claimUpdateRow worker_id now row) ∧
      (∀ r ∈ store, r.job_id ≠ row.job_id → r ∈ (claim_next_job worker_id now store).2)) ∧
    (∀ jid s, (condUpdateClaim worker_id now jid s).2 = 0 →
      (condUpdateClaim worker_id now jid s).1 = s) := by
  refine ⟨?_, ?_, ?_⟩
  · intro h
    unfold claim_next_job
    rw [h]
  · intro row hrow
    have hfilt : ∃ a l, store.filter (claimEligible now) = a :: l ∧
        row = minByFirst (fun j => j.created_at) a l := by
      unfold selectNextQueued at hrow
      rcases hf : store.filter (claimEligible now) with _ | ⟨a, l⟩
      · rw [hf] at hrow; cases hrow
      · rw [hf] at hrow
        exact ⟨a, l, rfl, (Option.some.injEq _ _).mp hrow.symm⟩
    rcases hfilt with ⟨a, l, hf, hmin⟩
    have hrowfilt : row ∈ store.filter (claimEligible now) := by
      rw [hf, hmin]
      exact minByFirst_mem _ a l
    have hrowmem : row ∈ store := (List.mem_filter.mp hrowfilt).1
    have hrowel : claimEligible now row = true := (List.mem_filter.mp hrowfilt).2
    have hel := claimEligible_spec hrowel
    have hmin2 : ∀ r ∈ store, claimEligible now r = true → row.created_at ≤ r.created_at := by
      intro r hr hrel
      have : r ∈ store.filter (claimEligible now) := List.mem_filter.mpr ⟨hr, hrel⟩
      rw [hf] at this
      rw [hmin]
      exact minByFirst_le (fun j => j.created_at) a l r this
    have hcount := condUpdateClaim_rowcount_one hids hrowmem hel.1 worker_id now
    have hclaim : claim_next_job worker_id now store =
        (some row, (condUpdateClaim worker_id now row.job_id store).1) := by
      unfold claim_next_job
      rw [hrow]
      simp only [hcount]
      simp
    have hpres : ∀ r : JobRow,
        ((if r.job_id = row.job_id ∧ r.status = Status.QUEUED
          then claimUpdateRow worker_id now r else r)).job_id = r.job_id := by
      intro r
      split <;> rfl
    refine ⟨hrowmem, hel.1, hel.2, hmin2, by rw [hclaim], ?_, ?_⟩
    · rw [hclaim]
      show get_job (store.map _) row.job_id = _
      rw [get_job_map_pres store row.job_id _ hpres]
      rw [get_job_of_mem_nodup hids hrowmem]
      show some (if row.job_id = row.job_id ∧ row.status = Status.QUEUED
          then claimUpdateRow worker_id now row else row) = _
      rw [if_pos ⟨rfl, hel.1⟩]
    · intro r hr hne
      rw [hclaim]
      show r ∈ store.map _
      have : (if r.job_id = row.job_id ∧ r.status = Status.QUEUED
          then claimUpdateRow worker_id now r else r) = r := by
        rw [if_neg]
        intro hc
        exact hne hc.1
      rw [← this]
      exact List.mem_map_of_mem _ hr
  · intro jid s h0
    unfold condUpdateClaim at h0 ⊢
    simp only at h0
    have hnil : s.filter (fun r => decide (r.job_id = jid ∧ r.status = Status.QUEUED)) = [] :=
      List.length_eq_zero.mp h0
    have hnone : ∀ r ∈ s, ¬ (r.job_id = jid ∧ r.status = Status.QUEUED) := by
      intro r hr
      have := List.filter_eq_nil_iff.mp hnil r hr
      simpa using this
    simp only
    clear h0 hnil hids
    revert hnone
    induction s with
    | nil => intro _; rfl
    | cons r rs ih =>
      intro hnone
      have h1 : ¬ (r.job_id = jid ∧ r.status = Status.QUEUED) :=
        hnone r (List.mem_cons_self _ _)
      simp only [List.map_cons, if_neg h1]
      rw [ih (fun x hx => hnone x (List.mem_cons_of_mem _ hx))]

/-- The claim SELECT only ever yields QUEUED rows. -/
theorem selectNextQueued_status {now : Nat} {store : Store} {row : JobRow}
    (h : selectNextQueued now store = some row) : row.status = Status.QUEUED := by
  unfold selectNextQueued at h
  rcases hf : store.filter (claimEligible now) with _ | ⟨a, l⟩
  · rw [hf] at h; cases h
  · rw [hf] at h
    have hrow : row = minByFirst (fun j => j.created_at) a l :=
      (Option.some.injEq _ _).mp h.symm
    have hmem : row ∈ store.filter (claimEligible now) := by
      rw [hf, hrow]
      exact minByFirst_mem _ a l
    exact (claimEligible_spec (List.mem_filter.mp hmem).2).1

/-- C6: when a dispatch attempt fails, the worker closes the attempt as
FAILED with the error details; if the attempts counter is still below
`max_attempts` it reroutes the job with the just-failed resource id
excluded and re-queues it with the worker cleared and `next_run_at` set
`min(60, 2^attempts)` seconds ahead; once attempts reach `max_attempts`
the job becomes FAILED instead. -/
theorem worker_failure_handling (P : Predictors) (env : List TelemetryPoint)
    (worker_id : String) (now : Nat) (row : JobRow) (att : AttemptRow)
    (eclass emsg etb : String) (req : JobRequest)
    (hreq : row.job_request_json = StoredRequest.parsed req)
    (hcur1 : row.chosen_resource_id ≠ "")
    (hcur2 : row.chosen_resource_id ≠ "none")
    (hatt : 1 ≤ row.attempts) (hmax : 1 ≤ row.max_attempts) :
    ((handle_dispatch_failure P env worker_id now true row att eclass emsg etb).attempt.status =
        Status.FAILED ∧
     (handle_dispatch_failure P env worker_id now true row att eclass emsg etb).attempt.error_class =
        some eclass ∧
     (handle_dispatch_failure P env worker_id now true row att eclass emsg etb).attempt.error_message =
        some emsg ∧
     (handle_dispatch_failure P env worker_id now true row att eclass emsg etb).attempt.traceback =
        some etb) ∧
    (row.attempts < row.max_attempts →
      (handle_dispatch_failure P env worker_id now true row att eclass emsg etb).job.status =
        Status.QUEUED ∧
      (handle_dispatch_failure P env worker_id now true row att eclass emsg etb).job.worker_id =
        none ∧
      (handle_dispatch_failure P env worker_id now true row att eclass emsg etb).job.next_run_at =
        some (now + min 60 (2 ^ row.attempts)) ∧
      ∃ req2,
        (handle_dispatch_failure P env worker_id now true row att eclass emsg etb).rerouted =
          some req2 ∧
        row.chosen_resource_id ∈ req2.hints.exclude_resource_ids) ∧
    (row.max_attempts ≤ row.attempts →
      (handle_dispatch_failure P env worker_id now true row att eclass emsg etb).job.status =
        Status.FAILED ∧
      (handle_dispatch_failure P env worker_id now true row att eclass emsg etb).job.worker_id =
        some worker_id ∧
      (handle_dispatch_failure P env worker_id now true row att eclass emsg etb).rerouted = none) := by
  have hA : (if row.attempts = 0 then 1 else row.attempts) = row.attempts :=
    if_neg (by omega)
  have hM : (if row.max_attempts = 0 then 2 else row.max_attempts) = row.max_attempts :=
    if_neg (by omega)
  have hbd : backoffDelay row.attempts = min 60 (2 ^ row.attempts) := by
    unfold backoffDelay
    rw [Nat.max_eq_right hatt]
  have hrr : rerouteRequest row = some (withExcludedCurrent req row.chosen_resource_id) := by
    unfold rerouteRequest
    rw [hreq]
  have hmemcur : row.chosen_resource_id ∈
      (withExcludedCurrent req row.chosen_resource_id).hints.exclude_resource_ids := by
    unfold withExcludedCurrent
    simp only [if_pos (And.intro hcur1 hcur2)]
    apply (mem_dedupFirst _ _).mpr
    simp
  by_cases hlt : row.attempts < row.max_attempts
  · have hout : handle_dispatch_failure P env worker_id now true row att eclass emsg etb =
        let att1 := finish_attempt_failure att eclass emsg etb
        let rra := reroute_job P env row att1
        { attempt := rra.2.1
          job := { rra.1 with status := Status.QUEUED
                              next_run_at := some (now + backoffDelay row.attempts)
                              worker_id := none
                              updated_at := now }
          rerouted := rra.2.2 } := by
      unfold handle_dispatch_failure
      simp only [hA, hM, true_and]
      rw [if_pos hlt]
      rw [if_pos hlt]
    have hstep : ∀ att1 : AttemptRow,
        (reroute_job P env row att1).2.1.status = att1.status ∧
        (reroute_job P env row att1).2.1.error_class = att1.error_class ∧
        (reroute_job P env row att1).2.1.error_message = att1.error_message ∧
        (reroute_job P env row att1).2.1.traceback = att1.traceback ∧
        (reroute_job P env row att1).2.2 =
          some (withExcludedCurrent req row.chosen_resource_id) := by
      intro att1
      unfold reroute_job
      rw [hrr]
      by_cases hd : (route P env
          (withExcludedCurrent req row.chosen_resource_id)).chosen_resource_id = "none"
      · simp only [if_pos hd]
        refine ⟨?_, ?_, ?_, ?_, ?_⟩ <;> trivial
      · simp only [if_neg hd]
        refine ⟨?_, ?_, ?_, ?_, ?_⟩ <;> trivial
    refine ⟨?_, ?_, ?_⟩
    · rw [hout]
      have h1 := hstep (finish_attempt_failure att eclass emsg etb)
      exact ⟨h1.1, h1.2.1, h1.2.2.1, h1.2.2.2.1⟩
    · intro _
      rw [hout]
      refine ⟨rfl, rfl, by rw [hbd], ?_⟩
      exact ⟨_, (hstep (finish_attempt_failure att eclass emsg etb)).2.2.2.2, hmemcur⟩
    · intro hge
      omega
  · have hout : handle_dispatch_failure P env worker_id now true row att eclass emsg etb =
        { attempt := finish_attempt_failure att eclass emsg etb
          job := { row with status := Status.FAILED
                            worker_id := some worker_id
                            updated_at := now }
          rerouted := none } := by
      unfold handle_dispatch_failure
      simp only [hA, hM, true_and]
      rw [if_neg hlt]
      rw [if_neg hlt]
    refine ⟨?_, ?_, ?_⟩
    · rw [hout]
      exact ⟨rfl, rfl, rfl, rfl⟩
    · intro h; exact absurd h hlt
    · intro _
      rw [hout]
      exact ⟨rfl, rfl, rfl⟩

/-- C7: when the stored job request carries `force_fail_first`, `dispatch`
raises the forced failure exactly on the first attempt (`attempts = 1`),
before and independently of the adapter, and otherwise runs the adapter
— the forced failure is never absorbed by the parse-error handler. -/
theorem dispatch_forced_failure (adapterRun : JobRow → Except DispatchError DispatchResult)
    (row : JobRow) (r : JobRequest)
    (h : row.job_request_json = StoredRequest.parsed r)
    (hf : r.hints.force_fail_first = true) :
    (row.attempts = 1 → dispatch adapterRun row = Except.error DispatchError.forcedFailFirst) ∧
    (row.attempts ≠ 1 → dispatch adapterRun row = adapterRun row) := by
  constructor
  · intro h1
    unfold dispatch
    simp only [h]
    rw [if_pos ⟨hf, h1⟩]
  · intro h1
    unfold dispatch
    simp only [h]
    rw [if_neg (fun hc => h1 hc.2)]

/-- C8 (amended): cancel rejects COMPLETED/FAILED jobs and leaves a
CANCELLED job CANCELLED; the worker claim selects only QUEUED jobs; the
SLA monitor's reroute update never touches `status`; but the manual
complete endpoint force-sets COMPLETED from any status, terminal ones
included. -/
theorem terminal_status_operations (store : Store) (jid : String) (now : Nat) (j : JobRow)
    (hj : get_job store jid = some j) :
    (j.status = Status.COMPLETED ∨ j.status = Status.FAILED →
       cancel_job store jid now =
         Except.error (ApiError.conflict "Cannot cancel job in this status")) ∧
    (j.status = Status.CANCELLED →
       ((cancel_job store jid now).toOption.bind (fun s => get_job s jid)).map JobRow.status =
         some Status.CANCELLED) ∧
    (∀ lat cost oref,
       ((complete_job store jid lat cost oref now).toOption.bind
           (fun s => get_job s jid)).map JobRow.status = some Status.COMPLETED) ∧
    (∀ row, selectNextQueued now store = some row → row.status = Status.QUEUED) ∧
    (∀ jid2 rid rtype,
       (get_job (monitor_update_choice store jid2 rid rtype now) jid).map JobRow.status =
         (get_job store jid).map JobRow.status) := by
  have hjid : j.job_id = jid := by
    have := List.find?_some hj
    simpa using this
  refine ⟨?_, ?_, ?_, ?_, ?_⟩
  · intro hterm
    unfold cancel_job
    simp only [hj]
    rw [if_pos hterm]
  · intro hc
    unfold cancel_job
    simp only [hj]
    rw [if_neg (by rw [hc]; rintro (h | h) <;> cases h)]
    show (get_job (store.map fun r => if r.job_id = jid then { r with status := Status.CANCELLED, worker_id := none, updated_at := now } else r) jid).map JobRow.status = some Status.CANCELLED
    rw [get_job_map_pres store jid _ (fun r => by by_cases hr : r.job_id = jid <;> simp [hr])]
    rw [hj]
    simp [hjid]
  · intro lat cost oref
    unfold complete_job
    simp only [hj]
    show (get_job (store.map fun r => if r.job_id = jid then { r with status := Status.COMPLETED, actual_latency_ms := some lat, actual_cost_usd := some cost, output_ref := oref, updated_at := now } else r) jid).map JobRow.status = some Status.COMPLETED
    rw [get_job_map_pres store jid _ (fun r => by by_cases hr : r.job_id = jid <;> simp [hr])]
    rw [hj]
    simp [hjid]
  · intro row hrow
    exact selectNextQueued_status hrow
  · intro jid2 rid rtype
    unfold monitor_update_choice
    rw [get_job_map_pres store jid _ (fun r => by by_cases hr : r.job_id = jid2 <;> simp [hr])]
    cases hg : get_job store jid with
    | none => rfl
    | some r =>
      by_cases hr : r.job_id = jid2 <;> simp [hr]

/-- C9 (amended): `cancel_job` rejects an unknown id with a 404-style
error and a COMPLETED or FAILED job with a 409-style conflict; every
other status — QUEUED, RUNNING, BLOCKED, and even an already-CANCELLED
job — is cancelled successfully, setting status CANCELLED and clearing
the worker assignment. -/
theorem cancel_job_spec (store : Store) (jid : String) (now : Nat) :
    (get_job store jid = none →
       cancel_job store jid now = Except.error (ApiError.notFound "job_id not found")) ∧
    (∀ j, get_job store jid = some j →
      ((j.status = Status.COMPLETED ∨ j.status = Status.FAILED) →
         cancel_job store jid now =
           Except.error (ApiError.conflict "Cannot cancel job in this status")) ∧
      (¬ (j.status = Status.COMPLETED ∨ j.status = Status.FAILED) →
         ∃ s2, cancel_job store jid now = Except.ok s2 ∧
           get_job s2 jid =
             some { j with status := Status.CANCELLED, worker_id := none, updated_at := now })) := by
  constructor
  · intro h
    unfold cancel_job
    rw [h]
  · intro j hj
    have hjid : j.job_id = jid := by
      have := List.find?_some hj
      simpa using this
    constructor
    · intro hterm
      unfold cancel_job
      simp only [hj]
      rw [if_pos hterm]
    · intro hok
      refine ⟨store.map (fun r => if r.job_id = jid then { r with status := Status.CANCELLED, worker_id := none, updated_at := now } else r), ?_, ?_⟩
      · unfold cancel_job
        simp only [hj]
        rw [if_neg hok]
      · rw [get_job_map_pres store jid _ (fun r => by by_cases hr : r.job_id = jid <;> simp [hr])]
        rw [hj]
        simp [hjid]

/-- C10: submitting a job whose `job_id` already exists re-routes and
upserts: the stored row is replaced by a fresh QUEUED-or-BLOCKED row
with attempts reset and no worker (only `features_json` survives), no
second row is created, and other jobs are untouched. -/
theorem submit_overwrites_existing (P : Predictors) (env : List TelemetryPoint)
    (store : Store) (job : JobRequest) (now : Nat) (old : JobRow)
    (h : get_job store job.job_id = some old) :
    get_job (submit_job P env store job now).2 job.job_id =
      some { buildSubmitRow (route P env job) job now with features_json := old.features_json } ∧
    (submit_job P env store job now).2.length = store.length ∧
    (∀ r ∈ store, r.job_id ≠ job.job_id → r ∈ (submit_job P env store job now).2) ∧
    ((buildSubmitRow (route P env job) job now).status = Status.QUEUED ∨
     (buildSubmitRow (route P env job) job now).status = Status.BLOCKED) ∧
    (buildSubmitRow (route P env job) job now).attempts = 0 ∧
    (buildSubmitRow (route P env job) job now).worker_id = none := by
  have holdid : old.job_id = job.job_id := by
    have := List.find?_some h
    simpa using this
  have hany : store.any
      (fun r => decide (r.job_id = (buildSubmitRow (route P env job) job now).job_id)) = true := by
    apply List.any_eq_true.mpr
    refine ⟨old, List.mem_of_find?_eq_some h, ?_⟩
    show decide (old.job_id = job.job_id) = true
    simp [holdid]
  have hups : (submit_job P env store job now).2 =
      store.map (fun r =>
        if r.job_id = job.job_id
        then { buildSubmitRow (route P env job) job now with features_json := r.features_json }
        else r) := by
    show upsert_job (buildSubmitRow (route P env job) job now) store = _
    unfold upsert_job
    rw [if_pos hany]
    rfl
  have hpres : ∀ r : JobRow,
      ((if r.job_id = job.job_id
        then { buildSubmitRow (route P env job) job now with features_json := r.features_json }
        else r)).job_id = r.job_id := by
    intro r
    by_cases hr : r.job_id = job.job_id
    · rw [if_pos hr]
      exact hr.symm
    · rw [if_neg hr]
  refine ⟨?_, ?_, ?_, ?_, rfl, rfl⟩
  · rw [hups, get_job_map_pres store job.job_id _ hpres, h]
    show some (if old.job_id = job.job_id
        then { buildSubmitRow (route P env job) job now with features_json := old.features_json }
        else old) = _
    rw [if_pos holdid]
  · rw [hups]
    exact List.length_map _ _
  · intro r hr hne
    rw [hups]
    have hfr : (if r.job_id = job.job_id
        then { buildSubmitRow (route P env job) job now with features_json := r.features_json }
        else r) = r := if_neg hne
    rw [← hfr]
    exact List.mem_map_of_mem _ hr
  · by_cases hc : (route P env job).chosen_resource_id = "none"
    · right
      show (if (route P env job).chosen_resource_id = "none"
          then Status.BLOCKED else Status.QUEUED) = Status.BLOCKED
      rw [if_pos hc]
    · left
      show (if (route P env job).chosen_resource_id = "none"
          then Status.BLOCKED else Status.QUEUED) = Status.QUEUED
      rw [if_neg hc]

/-! ## Closed witnesses and counterexamples -/

/-- C1 witness: on a one-row table the worker claims the QUEUED job and the
stored row becomes the claimed RUNNING row. -/
theorem claim_next_job_correct_witness :
    (claim_next_job "w1" 10 [rowQueuedFx]).1 = some rowQueuedFx ∧
    get_job (claim_next_job "w1" 10 [rowQueuedFx]).2 "job-q" =
      some (claimUpdateRow "w1" 10 rowQueuedFx) := by
  have h := (claim_next_job_correct "w1" 10 [rowQueuedFx] (by decide)).2.1 rowQueuedFx (by decide)
  exact ⟨h.2.2.2.2.1, h.2.2.2.2.2.1⟩

/-- C2 witness: a healthy unconstrained candidate is SLA-compliant and the
SLA-first selection applies to it. -/
theorem route_sla_first_choice_witness :
    okCandidates fallbackPredictors [tpEdge] jobPlain ≠ [] ∧
    ∃ best ∈ okCandidates fallbackPredictors [tpEdge] jobPlain,
      (route fallbackPredictors [tpEdge] jobPlain).chosen_resource_id = best.1.resource_id ∧
      (route fallbackPredictors [tpEdge] jobPlain).chosen_resource_type = best.1.resource_type ∧
      best.2.sla_ok = true ∧
      best.2.sla_violations = [] ∧
      (∀ p ∈ okCandidates fallbackPredictors [tpEdge] jobPlain,
        p.2.final_score ≤ best.2.final_score) ∧
      (okCandidates fallbackPredictors [tpEdge] jobPlain).find?
          (fun p => decide (p.2.final_score = best.2.final_score)) = some best ∧
      best.1.resource_id ∉ jobPlain.hints.exclude_resource_ids :=
  ⟨by decide, route_sla_first_choice fallbackPredictors [tpEdge] jobPlain (by decide)⟩

/-- C4 witness: a zero-deadline job with fallback disallowed gets the
sentinel decision and is stored BLOCKED. -/
theorem blocked_when_no_sla_no_fallback_witness :
    (route fallbackPredictors [tpEdge] jobStrict).chosen_resource_id = "none" ∧
    (route fallbackPredictors [tpEdge] jobStrict).explanation ≠ "" ∧
    (get_job (submit_job fallbackPredictors [tpEdge] [] jobStrict 5).2 jobStrict.job_id).map
        JobRow.status = some Status.BLOCKED ∧
    (get_job (submit_job fallbackPredictors [tpEdge] [] jobStrict 5).2 jobStrict.job_id).map
        JobRow.status ≠ some Status.QUEUED :=
  blocked_when_no_sla_no_fallback fallbackPredictors [tpEdge] [] jobStrict 5
    (by decide) (by decide)

/-- C6 witness: a first-attempt failure of a two-attempt job is closed
FAILED on the attempt row and the job is re-queued with a 2-second
backoff and no worker. -/
theorem worker_failure_handling_witness :
    (handle_dispatch_failure fallbackPredictors [] "w2" 5 true rowRetry attRetry
      "RuntimeError" "boom" "tb").attempt.status = Status.FAILED ∧
    (handle_dispatch_failure fallbackPredictors [] "w2" 5 true rowRetry attRetry
      "RuntimeError" "boom" "tb").job.status = Status.QUEUED ∧
    (handle_dispatch_failure fallbackPredictors [] "w2" 5 true rowRetry attRetry
      "RuntimeError" "boom" "tb").job.worker_id = none ∧
    (handle_dispatch_failure fallbackPredictors [] "w2" 5 true rowRetry attRetry
      "RuntimeError" "boom" "tb").job.next_run_at = some (5 + min 60 (2 ^ 1)) := by
  have h := worker_failure_handling fallbackPredictors [] "w2" 5 rowRetry attRetry
    "RuntimeError" "boom" "tb" reqRetry (by decide) (by decide) (by decide)
    (by decide) (by decide)
  have h2 := h.2.1 (by decide)
  exact ⟨h.1.1, h2.1, h2.2.1, h2.2.2.1⟩

/-- C7 witness: the forced-failure hint raises on the first attempt even
though the adapter would have succeeded. -/
theorem dispatch_forced_failure_witness :
    dispatch adapterOk rowForce = Except.error DispatchError.forcedFailFirst := by
  have h := dispatch_forced_failure adapterOk rowForce reqForce (by decide) (by decide)
  exact h.1 (by decide)

/-- C8 counterexample: the claim as stated is false — the manual complete
endpoint moves a FAILED (terminal) job to COMPLETED. -/
theorem terminal_absorbing_cex :
    (get_job [rowFailedFx] "job-f").map JobRow.status = some Status.FAILED ∧
    ((complete_job [rowFailedFx] "job-f" 5 1 none 9).toOption.bind
        (fun s => get_job s "job-f")).map JobRow.status = some Status.COMPLETED := by
  decide

/-- C8 witness: on a FAILED job, cancel conflicts while manual complete
force-sets COMPLETED. -/
theorem terminal_status_operations_witness :
    cancel_job [rowFailedFx] "job-f" 9 =
      Except.error (ApiError.conflict "Cannot cancel job in this status") ∧
    ((complete_job [rowFailedFx] "job-f" 5 1 none 9).toOption.bind
        (fun s => get_job s "job-f")).map JobRow.status = some Status.COMPLETED := by
  have h := terminal_status_operations [rowFailedFx] "job-f" 9 rowFailedFx (by decide)
  exact ⟨h.1 (by decide), h.2.2.1 5 1 none⟩

/-- C9 counterexample: the claim as stated is false — cancelling a job
that is already CANCELLED (a terminal status) succeeds instead of
rejecting with a conflict. -/
theorem cancel_terminal_cex :
    (get_job [rowCancelledFx] "job-g").map JobRow.status = some Status.CANCELLED ∧
    (cancel_job [rowCancelledFx] "job-g" 9).toOption.isSome = true := by
  decide

/-- C9 witness: cancelling a RUNNING job succeeds and stores CANCELLED. -/
theorem cancel_job_spec_witness :
    ((cancel_job [rowRunningFx] "job-h" 9).toOption.bind
        (fun s => get_job s "job-h")).map JobRow.status = some Status.CANCELLED := by
  have h := (cancel_job_spec [rowRunningFx] "job-h" 9).2 rowRunningFx (by decide)
  rcases h.2 (by decide) with ⟨s2, hs2, hg⟩
  rw [hs2]
  show (get_job s2 "job-h").map JobRow.status = some Status.CANCELLED
  rw [hg]
  rfl

/-- C10 witness: resubmitting an existing (terminal) job id overwrites the
row in place, keeping only `features_json`, without adding a row. -/
theorem submit_overwrites_existing_witness :
    get_job (submit_job fallbackPredictors [] [rowOldFx] jobResubmit 7).2 "job-j" =
      some { buildSubmitRow (route fallbackPredictors [] jobResubmit) jobResubmit 7 with
               features_json := some "feat" } ∧
    (submit_job fallbackPredictors [] [rowOldFx] jobResubmit 7).2.length = 1 := by
  have h := submit_overwrites_existing fallbackPredictors [] [rowOldFx] jobResubmit 7 rowOldFx
    (by decide)
  exact ⟨h.1, h.2.1⟩

/-- C3 witness: the hard-gate guarantee instantiated on a concrete
environment and job. -/
theorem route_hard_gates_witness :
    (route fallbackPredictors [tpEdge] jobPlain).chosen_resource_id = "none" ∨
    ∃ t ∈ [tpEdge],
      t.resource_id = (route fallbackPredictors [tpEdge] jobPlain).chosen_resource_id ∧
      ¬ (t.reliability < mkRat 85 100) ∧
      (jobPlain.requires_gpu = true → t.resource_type = "gpu") :=
  route_hard_gates fallbackPredictors [tpEdge] jobPlain

/-- C5 witness: the SLA-accounting guarantee instantiated on a concrete
snapshot and job. -/
theorem score_resource_sla_spec_witness :
    (score_resource fallbackPredictors tpEdge jobPlain).sla_violations =
      sla_check jobPlain (latencyOf fallbackPredictors tpEdge jobPlain).p90_ms
        (costOf fallbackPredictors tpEdge jobPlain).p90_usd (relOf tpEdge) ∧
    (score_resource fallbackPredictors tpEdge jobPlain).sla_violations.length =
      ((match jobPlain.sla.deadline_ms with
        | some d => if (latencyOf fallbackPredictors tpEdge jobPlain).p90_ms > d then 1 else 0
        | none => 0) +
       (match jobPlain.sla.max_cost_usd with
        | some m => if (costOf fallbackPredictors tpEdge jobPlain).p90_usd > m then 1 else 0
        | none => 0) +
       (match jobPlain.sla.min_reliability with
        | some m => if relOf tpEdge < m then 1 else 0
        | none => 0)) ∧
    ((score_resource fallbackPredictors tpEdge jobPlain).sla_ok = true ↔
      (score_resource fallbackPredictors tpEdge jobPlain).sla_violations = []) ∧
    (score_resource fallbackPredictors tpEdge jobPlain).effective_score =
      (score_resource fallbackPredictors tpEdge jobPlain).final_score -
        mkRat 35 100 *
          ((score_resource fallbackPredictors tpEdge jobPlain).sla_violations.length : Rat) ∧
    (∀ a b c d : Rat,
      msgDeadline a b ≠ msgMaxCost c d ∧
      msgDeadline a b ≠ msgMinReliability c d ∧
      msgMaxCost a b ≠ msgMinReliability c d) :=
  score_resource_sla_spec fallbackPredictors tpEdge jobPlain

end PBS
